import Mathlib

/- Verification of the expression/call compiler of dsp (src/irgen/expr.rs).

   The Rust code is shallowly embedded as Lean functions over an explicit
   compiler state.  Backend (inkwell/LLVM builder) interactions are modelled
   as an emission trace plus a fresh-register counter; constants are kept
   symbolic so that constant folding performed by the LLVM IRBuilder
   (casts of constant integers) is computed exactly.  Machine integers are
   Nat bit patterns taken modulo 2 ^ width; signed readings are made explicit
   through toSigned.  Failures (Rust panics) are an explicit error type. -/

/-- Semantic type tags of `ValueType` (crate::value), as listed in the spec's
data model: fixed-width signed integers, single-precision float, string
pointer, boolean, and void. -/
inductive ValueType
| I8
| I16
| F32
| Str
| Bool
| Void
deriving DecidableEq

/-- A backend value handle: either a constant the IRBuilder can fold
(integer bit pattern of a given width, float, string pointer) or a
runtime register produced by an emitted instruction. -/
inductive Operand
| iconst (width : Nat) (bits : Nat)
| fconst (q : Rat)
| sconst (s : String)
| reg (id : Nat)
deriving DecidableEq

/-- Embeds `Value<'ctx>` (crate::value): a tagged union wrapping a backend
handle, one variant per semantic type; `Void` carries no handle. -/
inductive Value
| I8 (value : Operand)
| I16 (value : Operand)
| F32 (value : Operand)
| Str (value : Operand)
| Bool (value : Operand)
| Void
deriving DecidableEq

/-- Embeds `Value::get_type`: the semantic tag of a typed value. -/
def Value.get_type : Value → ValueType
| .I8 _ => .I8
| .I16 _ => .I16
| .F32 _ => .F32
| .Str _ => .Str
| .Bool _ => .Bool
| .Void => .Void

/-- Embeds `rustpython_parser::ast::Number` as used by expr.rs: integers are
arbitrary precision, floats are source literals (`f64`; modelled exactly as
rationals since expr.rs only stores or negates them), complex carries no
data we inspect. -/
inductive Number
| Integer (value : Int)
| Float (value : Rat)
| Complex
deriving DecidableEq

/-- Binary operators of `rustpython_parser::ast::Operator`. -/
inductive Operator
| Add
| Sub
| Mult
| MatMult
| Div
| Mod
| Pow
| LShift
| RShift
| BitOr
| BitXor
| BitAnd
| FloorDiv
deriving DecidableEq

/-- Comparison operators of `rustpython_parser::ast::Comparison`. -/
inductive Comparison
| Equal
| NotEqual
| Less
| LessOrEqual
| Greater
| GreaterOrEqual
| In
| NotIn
| Is
| IsNot
deriving DecidableEq

/-- Unary operators of `rustpython_parser::ast::UnaryOperator`. -/
inductive UnaryOperator
| Pos
| Neg
| Not
| Inv
deriving DecidableEq

/-- Embeds `rustpython_parser::ast::ExpressionType`, restricted to the node
kinds expr.rs distinguishes.  Source locations are dropped: expr.rs uses
them only inside panic messages.  Keywords of a call are name/value pairs.
`Other` stands for every remaining node kind, all of which reach the final
catch-all panic arm of compile_expr. -/
inductive ExpressionType
| Number (value : Number)
| String (value : String)
| Identifier (name : String)
| Call (function : ExpressionType) (args : List ExpressionType)
    (keywords : List (Option String × ExpressionType))
| Binop (a : ExpressionType) (op : Operator) (b : ExpressionType)
| Unop (op : UnaryOperator) (a : ExpressionType)
| Compare (vals : List ExpressionType) (ops : List Comparison)
| None
| True
| False
| Ellipsis
| Other

/-- Failure modes.  Every Rust panic site of expr.rs is mapped to its own
constructor, following the spec's error taxonomy where one exists:
NameError, UndefinedFunction, UnsupportedLiteral (complex and ellipsis
literals), UnsupportedContext (string outside a function), then
UnsupportedUnaryOperand (negation of a non-literal operand),
UnsupportedUnaryOperator (a unary operator other than Neg on a numeric
literal), UnsupportedCallee, UnsupportedArgumentType, UnsupportedExpression.
UnwrapNonePanic models a Rust `Option::unwrap` panic (no taxonomy entry),
IntoIntTypePanic an inkwell `into_int_type` on a non-integer type,
Unreachable the `unreachable!` arms, and OutOfFuel is an artifact of the
fuel-based embedding of recursion (never reached for enough fuel). -/
inductive CompilerError
| NameError (name : String)
| UndefinedFunction (name : String)
| UnsupportedLiteral
| UnsupportedContext
| UnsupportedUnaryOperand
| UnsupportedUnaryOperator
| UnsupportedCallee
| UnsupportedArgumentType
| UnsupportedExpression
| UnwrapNonePanic (site : String)
| IntoIntTypePanic
| Unreachable
| OutOfFuel
deriving DecidableEq

/-- The backend's representation of a function's return: an integer of some
bit width, a float, a pointer, or no return value (`void`).  This is what
`try_as_basic_value` together with `get_bit_width` reports about the call
instruction in expr.rs lines 222-241. -/
inductive RetRep
| int (width : Nat)
| float
| ptr
| void
deriving DecidableEq

/-- Declared parameter type of a function signature (the LLVM type of a
parameter value returned by `get_params`). -/
inductive PTy
| i8
| i16
| f32
| ptr
deriving DecidableEq

/-- Embeds inkwell's `BasicTypeEnum::into_int_type` on a parameter type:
yields the integer bit width, and panics on a non-integer type. -/
def PTy.into_int_width : PTy → Except CompilerError Nat
| .i8 => .ok 8
| .i16 => .ok 16
| .f32 => .error .IntoIntTypePanic
| .ptr => .error .IntoIntTypePanic

/-- A function signature as the function table exposes it to expr.rs:
ordered parameter types (`get_params`) and the return representation. -/
structure FuncSig where
  params : List PTy
  ret : RetRep
deriving DecidableEq

/-- The read-only compilation context: the function table (lookup by plain or
mangled name, `get_function`), the global scope `vars` (embedding the Rust
field `variables`, a Lean keyword; name to (type, storage slot)), and
`fnLocal`, which combines `fn_value_opt` with
`fn_scope.get(&fn_value()).unwrap()`: it is `some` exactly when a function
body is being compiled and then holds that function's local scope. -/
structure Ctx where
  functions : List (String × FuncSig)
  vars : List (String × (ValueType × Nat))
  fnLocal : Option (List (String × (ValueType × Nat)))

/-- Observable backend emissions (IRBuilder side effects) in source order. -/
inductive Event
| load (dst : Nat) (name : String) (ptr : Nat)
| globalString (s : String)
| intCast (dst : Nat) (src : Operand) (width : Nat)
| intTrunc (dst : Nat) (src : Operand) (width : Nat)
| binop (dst : Nat) (op : Operator) (a : Value) (b : Value)
| comparison (dst : Nat) (vals : List Value) (ops : List Comparison)
| call (dst : Nat) (callee : String) (args : List Operand) (tail : Bool)
deriving DecidableEq

/-- Mutable backend state threaded through compilation: the emission trace
and a fresh-register counter. -/
structure CState where
  trace : List Event
  next : Nat
deriving DecidableEq

/-- The compilation monad: state threading plus fatal errors (Rust panics
abort the whole lowering, per the spec's propagation policy). -/
def CompM (α : Type) : Type := CState → Except CompilerError (α × CState)

def CompM.mk_pure (a : α) : CompM α := fun s => .ok (a, s)

def CompM.mk_bind (x : CompM α) (f : α → CompM β) : CompM β := fun s =>
  match x s with
  | .error e => .error e
  | .ok (a, s') => f a s'

instance : Monad CompM where
  pure := CompM.mk_pure
  bind := CompM.mk_bind

/-- A fatal failure (Rust panic). -/
def CompM.error (e : CompilerError) : CompM α := fun _ => .error e

/-- Allocate a fresh register id (a new instruction result). -/
def freshReg : CompM Nat := fun s => .ok (s.next, ⟨s.trace, s.next + 1⟩)

/-- Append a backend emission to the trace. -/
def emit (ev : Event) : CompM Unit := fun s => .ok ((), ⟨s.trace ++ [ev], s.next⟩)

theorem CompM.bind_apply (x : CompM α) (f : α → CompM β) (s : CState) :
    (x >>= f) s = match x s with
      | .error e => .error e
      | .ok (a, s') => f a s' := rfl

theorem CompM.pure_apply (a : α) (s : CState) : (pure a : CompM α) s = .ok (a, s) := rfl

theorem CompM.error_apply (e : CompilerError) (s : CState) :
    (CompM.error e : CompM α) s = .error e := rfl

theorem freshReg_apply (s : CState) : freshReg s = .ok (s.next, ⟨s.trace, s.next + 1⟩) := rfl

theorem emit_apply (ev : Event) (s : CState) :
    emit ev s = .ok ((), ⟨s.trace ++ [ev], s.next⟩) := rfl

/-- Two's-complement reading of a `w`-bit pattern. -/
def toSigned (w : Nat) (bits : Nat) : Int :=
  if bits < 2 ^ (w - 1) then (bits : Int) else (bits : Int) - 2 ^ w

/-- Bit pattern of width `w` holding the signed value of a `w0`-bit pattern:
the constant folding LLVM's `CreateIntCast` (signed) performs — identity at
equal width, sign extension when widening, truncation when narrowing. -/
def signCast (w0 : Nat) (w : Nat) (bits : Nat) : Nat :=
  ((toSigned w0 bits) % (2 ^ w : Int)).toNat

/-- Modelled from the spec: `truncate_bigint_to_u64` (crate::value::convert,
not under src/) wraps an arbitrary-precision source integer to an unsigned
64-bit value, two's complement. -/
def truncate_bigint_to_u64 (n : Int) : Nat := (n % (2 ^ 64 : Int)).toNat

/-- Embeds `i16_type().const_int(u, true)`: an i16 constant holds the low
16 bits of the supplied 64-bit value. -/
def i16_const_int (u : Nat) : Operand := .iconst 16 (u % 2 ^ 16)

/-- Embeds `build_int_cast` (LLVM `CreateIntCast`, signed): constants are
folded by the builder; at equal width the value is returned unchanged;
otherwise a cast instruction is emitted. -/
def build_int_cast (srcWidth : Nat) (v : Operand) (w : Nat) : CompM Operand :=
  match v with
  | .iconst w0 bits => pure (.iconst w (signCast w0 w bits))
  | v => if w = srcWidth then pure v else do
      let r ← freshReg
      emit (.intCast r v w)
      pure (.reg r)

/-- Embeds `build_int_truncate` (LLVM `CreateTrunc`): constants are folded to
their low `w` bits; at equal width the value is returned unchanged;
otherwise a truncate instruction is emitted. -/
def build_int_truncate (srcWidth : Nat) (v : Operand) (w : Nat) : CompM Operand :=
  match v with
  | .iconst _ bits => pure (.iconst w (bits % 2 ^ w))
  | v => if w = srcWidth then pure v else do
      let r ← freshReg
      emit (.intTrunc r v w)
      pure (.reg r)

/-- Modelled from the spec: `Value::from_basic_value` (crate::value, not
under src/) wraps a backend handle with the given semantic tag (data-model
invariant: the tag agrees with the handle). -/
def Value.from_basic_value : ValueType → Operand → Value
| .I8, v => .I8 v
| .I16, v => .I16 v
| .F32, v => .F32 v
| .Str, v => .Str v
| .Bool, v => .Bool v
| .Void, _ => .Void

/-- Tag fragment used by the modelled mangling. -/
def ValueType.tag : ValueType → String
| .I8 => "i8"
| .I16 => "i16"
| .F32 => "f32"
| .Str => "str"
| .Bool => "bool"
| .Void => "void"

/-- Modelled from the spec: `mangling` (crate::compiler::mangle, not under
src/): a deterministic, collision-free encoding of the plain name together
with the first argument's type tag. -/
def mangling (name : String) (ty : ValueType) : String := name ++ "__" ++ ty.tag

/-- Embeds the function-resolution match of compile_expr_call (expr.rs lines
167-179): first an exact lookup of the plain name in the function table;
if absent, a lookup of the mangled name derived from the plain name and the
first argument's type; if that is also absent, the `expect` panic reporting
the function as not defined.  The resolved symbol name is returned along
with the signature (it identifies the `FunctionValue` the Rust obtains). -/
def resolve_function (ctx : Ctx) (func_name : String) (first_arg : Value) :
    Except CompilerError (String × FuncSig) :=
  match ctx.functions.lookup func_name with
  | some f => .ok (func_name, f)
  | none =>
    let func_name_mangled := mangling func_name first_arg.get_type
    match ctx.functions.lookup func_name_mangled with
    | some f => .ok (func_name_mangled, f)
    | none => .error (.UndefinedFunction func_name)

/-- Embeds the result-type inference of compile_expr_call (expr.rs lines
222-241).  The Rust matches on the basic value returned by
`try_as_basic_value`: its shape is exactly the function's return
representation, so the match is driven by `RetRep` here.  An integer return
of width 8 or 16 becomes I8 or I16, any other width hits `unreachable!`;
a float return becomes F32; a pointer return satisfies neither
`is_int_value` nor `is_float_value` and hits the other `unreachable!`;
`Either::Right` (no basic value, a void function) becomes Void. -/
def infer_call_result (ret : RetRep) (bv : Operand) : Except CompilerError Value :=
  match ret with
  | .int w =>
    if w = 8 then .ok (Value.from_basic_value .I8 bv)
    else if w = 16 then .ok (Value.from_basic_value .I16 bv)
    else .error .Unreachable
  | .float => .ok (Value.from_basic_value .F32 bv)
  | .ptr => .error .Unreachable
  | .void => .ok .Void

/-- Embeds the load performed on a resolved identifier:
`Value::from_basic_value(*ty, builder.build_load(var, name).into())`,
the expression repeated in each arm of the identifier case of compile_expr
(expr.rs lines 70-104). -/
def load_variable (name : String) (sym : ValueType × Nat) : CompM Value := do
  let r ← freshReg
  emit (.load r name sym.2)
  pure (Value.from_basic_value sym.1 (.reg r))

/-- Modelled from the spec: `compile_op` (the operator-lowering delegate, not
under src/).  Per the spec it receives the two pre-lowered operands and
emits target-specific operator IR; its internal promotion rules are out of
scope, so it is modelled as one emission producing a fresh integer value. -/
def compile_op (a : Value) (op : Operator) (b : Value) : CompM Value := do
  let r ← freshReg
  emit (.binop r op a b)
  pure (.I16 (.reg r))

/-- Embeds the per-argument cast match of compile_expr_call (expr.rs lines
193-216), applied to each paired (argument value, parameter): an I8 value
goes through `build_int_cast` to the parameter's integer width, an I16
value through `build_int_truncate` to the parameter's integer width, F32
and Str values are pushed unchanged, and every other variant panics
("NotImplemented argument type"). -/
def cast_arg (value : Value) (proto : PTy) : CompM Operand :=
  match value with
  | .I8 v =>
    match proto.into_int_width with
    | .ok w => build_int_cast 8 v w
    | .error e => CompM.error e
  | .I16 v =>
    match proto.into_int_width with
    | .ok w => build_int_truncate 16 v w
    | .error e => CompM.error e
  | .F32 v => pure v
  | .Str v => pure v
  | _ => CompM.error .UnsupportedArgumentType

mutual

/-- Embeds `compile_expr` (expr.rs lines 21-147).  `fuel` bounds recursion
depth (the Rust recursion is structural on the tree); every recursive call
decrements it, and 0 yields the artificial OutOfFuel failure.
`set_source_location` is dropped (used only for diagnostics).  Arm by arm:
integer literals become i16 constants of the truncated value; float
literals become f32 constants; complex literals panic; string literals
build a global string pointer inside a function and panic outside; calls
discard their keywords (the Rust binds them to `_keywords`) and defer to
compile_expr_call; binops lower the left then the right operand and
delegate to compile_op; identifiers resolve against the local scope first
(when inside a function) with the global `variables` map as fallback,
panicking with a name error when absent from both; comparisons defer to
compile_comparison; None, True, False become Void and boolean constants;
unary operators constant-fold Neg on integer and float literals, panic on
other operators, and panic on any non-number operand; Ellipsis and every
remaining node kind panic. -/
def compile_expr (ctx : Ctx) : Nat → ExpressionType → CompM Value
| 0, _ => CompM.error .OutOfFuel
| fuel + 1, e =>
  match e with
  | .Number (.Integer n) => pure (.I16 (i16_const_int (truncate_bigint_to_u64 n)))
  | .Number (.Float q) => pure (.F32 (.fconst q))
  | .Number .Complex => CompM.error .UnsupportedLiteral
  | .String str =>
    match ctx.fnLocal with
    | some _ => do
      emit (.globalString str)
      pure (.Str (.sconst str))
    | none => CompM.error .UnsupportedContext
  | .Call function args _keywords => compile_expr_call ctx fuel function args
  | .Binop a op b => do
    let va ← compile_expr ctx fuel a
    let vb ← compile_expr ctx fuel b
    compile_op va op vb
  | .Identifier name =>
    match ctx.fnLocal with
    | none =>
      match ctx.vars.lookup name with
      | some sym => load_variable name sym
      | none => CompM.error (.NameError name)
    | some locals =>
      match locals.lookup name with
      | none =>
        match ctx.vars.lookup name with
        | some sym => load_variable name sym
        | none => CompM.error (.NameError name)
      | some sym => load_variable name sym
  | .Compare vals ops => compile_comparison ctx fuel vals ops
  | .None => pure .Void
  | .True => pure (.Bool (.iconst 1 1))
  | .False => pure (.Bool (.iconst 1 0))
  | .Unop op a =>
    match a with
    | .Number (.Integer n) =>
      match op with
      | .Neg => pure (.I16 (i16_const_int (truncate_bigint_to_u64 (-n))))
      | _ => CompM.error .UnsupportedUnaryOperator
    | .Number (.Float q) =>
      match op with
      | .Neg => pure (.F32 (.fconst (-q)))
      | _ => CompM.error .UnsupportedUnaryOperator
    | .Number .Complex => CompM.error .UnsupportedLiteral
    | _ => CompM.error .UnsupportedUnaryOperand
  | .Ellipsis => CompM.error .UnsupportedLiteral
  | .Other => CompM.error .UnsupportedExpression

/-- Embeds `compile_expr_call` (expr.rs lines 149-242).  The callee must be a
plain identifier (anything else panics).  The first argument is then
lowered eagerly: the Rust unwraps `args.first()`, so an empty argument
list panics at that unwrap before any table lookup.  Resolution defers to
resolve_function; its failure panics.  The argument loop runs over
`args.zip(get_params())`, the call is emitted with the tail-call hint set,
and the result value is inferred by infer_call_result from the call
instruction's return representation. -/
def compile_expr_call (ctx : Ctx) : Nat → ExpressionType → List ExpressionType → CompM Value
| 0, _, _ => CompM.error .OutOfFuel
| fuel + 1, func, args =>
  match func with
  | .Identifier name => do
    let first_arg ←
      match args.head? with
      | some a0 => compile_expr ctx fuel a0
      | none => CompM.error (.UnwrapNonePanic "args.first()")
    match resolve_function ctx name first_arg with
    | .error e => CompM.error e
    | .ok (resolved, f) => do
      let args_value ← compile_call_args ctx fuel first_arg 0 (args.zip f.params)
      let r ← freshReg
      emit (.call r resolved args_value true)
      match infer_call_result f.ret (.reg r) with
      | .ok v => pure v
      | .error e => CompM.error e
  | _ => CompM.error .UnsupportedCallee

/-- Embeds the argument loop of compile_expr_call (expr.rs lines 183-217):
the Rust enumerates `args.iter().zip(args_proto.iter())`, so the pairs are
positional up to the shorter of the two lists; index 0 reuses the already
lowered first argument, later indices lower their expression; each value
then goes through the cast match (cast_arg) and the cast results are
collected in order. -/
def compile_call_args (ctx : Ctx) :
    Nat → Value → Nat → List (ExpressionType × PTy) → CompM (List Operand)
| 0, _, _, _ => CompM.error .OutOfFuel
| _fuel + 1, _, _, [] => pure []
| fuel + 1, first_arg, i, (expr, proto) :: rest => do
  let value ← if i = 0 then pure first_arg else compile_expr ctx fuel expr
  let opnd ← cast_arg value proto
  let restv ← compile_call_args ctx fuel first_arg (i + 1) rest
  pure (opnd :: restv)

/-- Lowers a list of expressions in source order (used by the comparison
delegate). -/
def compile_expr_list (ctx : Ctx) : Nat → List ExpressionType → CompM (List Value)
| 0, _ => CompM.error .OutOfFuel
| _fuel + 1, [] => pure []
| fuel + 1, e :: rest => do
  let v ← compile_expr ctx fuel e
  let vs ← compile_expr_list ctx fuel rest
  pure (v :: vs)

/-- Modelled from the spec: `compile_comparison` (the comparison-lowering
delegate, not under src/).  Per the spec it lowers the operand sequence in
source order through the full expression entry point and then emits the
comparison chain; the emission itself is out of scope, modelled as one
event producing a fresh boolean. -/
def compile_comparison (ctx : Ctx) :
    Nat → List ExpressionType → List Comparison → CompM Value
| 0, _, _ => CompM.error .OutOfFuel
| fuel + 1, vals, ops => do
  let vs ← compile_expr_list ctx fuel vals
  let r ← freshReg
  emit (.comparison r vs ops)
  pure (.Bool (.reg r))

end

theorem take_length_zip (l2 : List β) (l1 : List α) :
    (l1.take l2.length).zip l2 = l1.zip l2 := by
  induction l2 generalizing l1 with
  | nil => simp
  | cons b bs ih =>
    cases l1 with
    | nil => simp
    | cons a as => simp [ih]

theorem head?_take_of_pos (l : List α) (k : Nat) (h : 1 ≤ k) :
    (l.take k).head? = l.head? := by
  cases l with
  | nil => simp
  | cons a as =>
    cases k with
    | zero => omega
    | succ k => simp

/-- C10: keyword arguments of a call are silently discarded: lowering a call
carrying any keywords is identical — same result value, same emissions,
same register allocation — to lowering the same call with no keywords, so
lowering neither fails because of keywords nor passes them on, and the
keyword value expressions are never lowered. -/
theorem C10_keywords_discarded (ctx : Ctx) (fuel : Nat) (function : ExpressionType)
    (args : List ExpressionType) (keywords : List (Option String × ExpressionType))
    (s : CState) :
    compile_expr ctx (fuel + 1) (.Call function args keywords) s
      = compile_expr ctx (fuel + 1) (.Call function args []) s := rfl

/-- C1 (code-bug evidence): the claim says a zero-argument call whose plain
callee name is present in the function table succeeds via direct name
lookup.  The code instead unwraps `args.first()` before any lookup, so a
zero-argument call panics unconditionally: here the table holds a plain
"f" with no parameters, yet lowering the call `f()` fails with the unwrap
panic; the final clause shows every zero-argument call fails this way
whatever the function table contains. -/
theorem C1_zero_arg_call_unwrap_panic :
    ((⟨[("f", ⟨[], .void⟩)], [], none⟩ : Ctx).functions.lookup "f"
        = some (⟨[], .void⟩ : FuncSig))
  ∧ compile_expr (⟨[("f", ⟨[], .void⟩)], [], none⟩ : Ctx) 2
      (.Call (.Identifier "f") [] []) ⟨[], 0⟩
      = .error (.UnwrapNonePanic "args.first()")
  ∧ (∀ (functions : List (String × FuncSig)) (fuel : Nat) (name : String) (s : CState),
      compile_expr_call (⟨functions, [], none⟩ : Ctx) (fuel + 1) (.Identifier name) [] s
        = .error (.UnwrapNonePanic "args.first()")) :=
  ⟨rfl, rfl, fun _ _ _ _ => rfl⟩

/-- The low 16 bits of the u64-truncated value of `n` are `n mod 65536`:
the composition of truncate_bigint_to_u64 with the i16 constant builder
keeps exactly the low 16 bits of `n`. -/
theorem truncate_to_i16_bits (n : Int) :
    truncate_bigint_to_u64 n % 2 ^ 16 = (n % 65536).toNat := by
  unfold truncate_bigint_to_u64
  have hm : n % (2 ^ 64 : Int) % 65536 = n % 65536 :=
    Int.emod_emod_of_dvd n (by norm_num)
  have hnn : 0 ≤ n % (2 ^ 64 : Int) := Int.emod_nonneg n (by norm_num)
  have h16 : (2:Nat) ^ 16 = 65536 := by norm_num
  rw [h16, ← hm]
  generalize n % (2 ^ 64 : Int) = a at hnn ⊢
  omega

/-- C6: an integer literal `n` lowers, in any context and state, to an I16
constant holding `n mod 65536`; when `-32768 ≤ n ≤ 32767` the
two's-complement reading of that constant is exactly `n`, and in general
the reading lies in `[-32768, 32767]` and is congruent to `n` modulo
65536.  Float, True, False and None literals lower to F32, Bool and Void
values respectively, so no literal ever lowers to I8. -/
theorem C6_integer_literal_lowering (ctx : Ctx) (fuel : Nat) (n : Int) (s : CState) :
    compile_expr ctx (fuel + 1) (.Number (.Integer n)) s
      = .ok (.I16 (.iconst 16 ((n % 65536).toNat)), s)
  ∧ (-32768 ≤ n → n ≤ 32767 → toSigned 16 ((n % 65536).toNat) = n)
  ∧ (-32768 ≤ toSigned 16 ((n % 65536).toNat)
      ∧ toSigned 16 ((n % 65536).toNat) ≤ 32767
      ∧ (toSigned 16 ((n % 65536).toNat) - n) % 65536 = 0)
  ∧ (∀ q, compile_expr ctx (fuel + 1) (.Number (.Float q)) s = .ok (.F32 (.fconst q), s))
  ∧ compile_expr ctx (fuel + 1) .True s = .ok (.Bool (.iconst 1 1), s)
  ∧ compile_expr ctx (fuel + 1) .False s = .ok (.Bool (.iconst 1 0), s)
  ∧ compile_expr ctx (fuel + 1) .None s = .ok (.Void, s) := by
  have hbits := truncate_to_i16_bits n
  have e1 : (2:Nat) ^ (16 - 1) = 32768 := by norm_num
  have e2 : (2:Int) ^ 16 = 65536 := by norm_num
  refine ⟨?_, ?_, ?_, fun q => rfl, rfl, rfl, rfl⟩
  · rw [← hbits]
    rfl
  · intro h1 h2
    simp only [toSigned, e1, e2]
    split_ifs <;> omega
  · simp only [toSigned, e1, e2]
    refine ⟨?_, ?_, ?_⟩ <;> (split_ifs <;> omega)

/-- C6 witness: the out-of-range literal 70000 lowers to the I16 constant
with bit pattern 70000 mod 65536, and the in-range literal 5 reads back
exactly as 5. -/
theorem C6_witness :
    compile_expr (⟨[], [], none⟩ : Ctx) 1 (.Number (.Integer 70000)) ⟨[], 0⟩
      = .ok (.I16 (.iconst 16 (((70000:Int) % 65536).toNat)), ⟨[], 0⟩)
  ∧ toSigned 16 (((5:Int) % 65536).toNat) = 5 :=
  ⟨(C6_integer_literal_lowering ⟨[], [], none⟩ 0 70000 ⟨[], 0⟩).1,
   (C6_integer_literal_lowering ⟨[], [], none⟩ 0 5 ⟨[], 0⟩).2.1 (by decide) (by decide)⟩

/-- C7: identifier resolution order.  Outside any function body
(`fnLocal = none`) only the global scope is consulted: a hit loads the
global symbol, a miss is a NameError.  Inside a function body the local
scope is consulted first: a local hit loads the local symbol whatever the
global scope holds (shadow law), a local miss falls back to the global
scope, and a NameError arises exactly when the name is absent from both
applicable scopes. -/
theorem C7_identifier_resolution (ctx : Ctx) (fuel : Nat) (name : String) (s : CState) :
    (ctx.fnLocal = none →
      (∀ ty ptr, ctx.vars.lookup name = some (ty, ptr) →
        compile_expr ctx (fuel + 1) (.Identifier name) s
          = .ok (Value.from_basic_value ty (.reg s.next),
                 ⟨s.trace ++ [.load s.next name ptr], s.next + 1⟩))
      ∧ (ctx.vars.lookup name = none →
        compile_expr ctx (fuel + 1) (.Identifier name) s = .error (.NameError name)))
  ∧ (∀ locals, ctx.fnLocal = some locals →
      (∀ ty ptr, locals.lookup name = some (ty, ptr) →
        compile_expr ctx (fuel + 1) (.Identifier name) s
          = .ok (Value.from_basic_value ty (.reg s.next),
                 ⟨s.trace ++ [.load s.next name ptr], s.next + 1⟩))
      ∧ (locals.lookup name = none →
        (∀ ty ptr, ctx.vars.lookup name = some (ty, ptr) →
          compile_expr ctx (fuel + 1) (.Identifier name) s
            = .ok (Value.from_basic_value ty (.reg s.next),
                   ⟨s.trace ++ [.load s.next name ptr], s.next + 1⟩))
        ∧ (ctx.vars.lookup name = none →
          compile_expr ctx (fuel + 1) (.Identifier name) s
            = .error (.NameError name)))) := by
  refine ⟨fun hfn => ⟨fun ty ptr hv => ?_, fun hv => ?_⟩,
          fun locals hfn => ⟨fun ty ptr hv => ?_,
            fun hloc => ⟨fun ty ptr hv => ?_, fun hv => ?_⟩⟩⟩ <;>
    simp [compile_expr, load_variable, CompM.bind_apply, freshReg_apply, emit_apply,
      CompM.pure_apply, CompM.error_apply, *]

/-- C7 witness: with a global `x : I16` in slot 0 shadowed by a local
`x : F32` in slot 1, the identifier resolves to the local F32 symbol; and
outside any function an unknown identifier is a NameError. -/
theorem C7_witness :
    compile_expr (⟨[], [("x", (.I16, 0))], some [("x", (.F32, 1))]⟩ : Ctx) 1
      (.Identifier "x") ⟨[], 0⟩
      = .ok (.F32 (.reg 0), ⟨[.load 0 "x" 1], 1⟩)
  ∧ compile_expr (⟨[], [], none⟩ : Ctx) 1 (.Identifier "y") ⟨[], 0⟩
      = .error (.NameError "y") :=
  ⟨by
    have h := ((C7_identifier_resolution
      ⟨[], [("x", (.I16, 0))], some [("x", (.F32, 1))]⟩ 0 "x" ⟨[], 0⟩).2
        [("x", (.F32, 1))] rfl).1 .F32 1 rfl
    simpa using h,
   by
    have h := ((C7_identifier_resolution ⟨[], [], none⟩ 0 "y" ⟨[], 0⟩).1 rfl).2 rfl
    exact h⟩

/-- C8: unary negation is constant-folded on integer and float literals —
the integer case yields an I16 constant holding `(-n) mod 65536` and the
float case an F32 constant holding the negated literal, both without any
emission — negation of any expression that is not a number literal fails
with the unsupported-unary-operand panic, and negation succeeds only on
integer or float literals. -/
theorem C8_unary_negation (ctx : Ctx) (fuel : Nat) (s : CState) :
    (∀ n : Int, compile_expr ctx (fuel + 1) (.Unop .Neg (.Number (.Integer n))) s
        = .ok (.I16 (.iconst 16 (((-n) % 65536).toNat)), s))
  ∧ (∀ q : Rat, compile_expr ctx (fuel + 1) (.Unop .Neg (.Number (.Float q))) s
        = .ok (.F32 (.fconst (-q)), s))
  ∧ (∀ e, (∀ num, e ≠ .Number num) →
        compile_expr ctx (fuel + 1) (.Unop .Neg e) s = .error .UnsupportedUnaryOperand)
  ∧ (∀ e v s', compile_expr ctx (fuel + 1) (.Unop .Neg e) s = .ok (v, s') →
        (∃ n, e = .Number (.Integer n)) ∨ (∃ q, e = .Number (.Float q))) := by
  refine ⟨fun n => ?_, fun q => rfl, fun e he => ?_, fun e v s' h => ?_⟩
  · rw [← truncate_to_i16_bits]
    rfl
  · cases e <;> first
      | rfl
      | exact absurd rfl (he _)
  · cases e <;> try exact Except.noConfusion h
    case Number num =>
      cases num with
      | Integer n => exact Or.inl ⟨n, rfl⟩
      | Float q => exact Or.inr ⟨q, rfl⟩
      | Complex => exact Except.noConfusion h

/-- C8 witness: negating the integer literal 5 folds to the I16 constant
holding -5 mod 65536, and negating an identifier fails with the
unsupported-unary-operand panic. -/
theorem C8_witness :
    compile_expr (⟨[], [], none⟩ : Ctx) 1 (.Unop .Neg (.Number (.Integer 5))) ⟨[], 0⟩
      = .ok (.I16 (.iconst 16 (((-5:Int) % 65536).toNat)), ⟨[], 0⟩)
  ∧ compile_expr (⟨[], [], none⟩ : Ctx) 1 (.Unop .Neg (.Identifier "x")) ⟨[], 0⟩
      = .error .UnsupportedUnaryOperand :=
  ⟨(C8_unary_negation ⟨[], [], none⟩ 0 ⟨[], 0⟩).1 5,
   (C8_unary_negation ⟨[], [], none⟩ 0 ⟨[], 0⟩).2.2.1 (.Identifier "x")
     (fun _ h => nomatch h)⟩

/-- C9: a string literal lowers to a Str value (a pointer to the emitted
constant string buffer) whenever a function body is being compiled, and
fails with the unsupported-context panic when no enclosing function is
being compiled. -/
theorem C9_string_literal (ctx : Ctx) (fuel : Nat) (str : String) (s : CState) :
    (∀ locals, ctx.fnLocal = some locals →
      compile_expr ctx (fuel + 1) (.String str) s
        = .ok (.Str (.sconst str), ⟨s.trace ++ [.globalString str], s.next⟩))
  ∧ (ctx.fnLocal = none →
      compile_expr ctx (fuel + 1) (.String str) s = .error .UnsupportedContext) := by
  constructor
  · intro locals hfn
    simp [compile_expr, hfn, CompM.bind_apply, emit_apply, CompM.pure_apply]
  · intro hfn
    simp [compile_expr, hfn, CompM.error_apply]

/-- C9 witness: inside a function body the literal "hi" lowers to a Str
with a global-string emission; outside, it fails with the
unsupported-context panic. -/
theorem C9_witness :
    compile_expr (⟨[], [], some []⟩ : Ctx) 1 (.String "hi") ⟨[], 0⟩
      = .ok (.Str (.sconst "hi"), ⟨[.globalString "hi"], 0⟩)
  ∧ compile_expr (⟨[], [], none⟩ : Ctx) 1 (.String "hi") ⟨[], 0⟩
      = .error .UnsupportedContext :=
  ⟨by simpa using (C9_string_literal ⟨[], [], some []⟩ 0 "hi" ⟨[], 0⟩).1 [] rfl,
   (C9_string_literal ⟨[], [], none⟩ 0 "hi" ⟨[], 0⟩).2 rfl⟩

/-- C5: the call-result inference derives the result typed value from the
backend's reported return representation: an 8-bit integer return becomes
I8 and a 16-bit one I16 around the call's return handle, any other integer
width fails on the defensive unreachable arm, a float return becomes F32,
absence of a return value becomes Void, and a pointer (string) return is
not handled — it also falls into a defensive unreachable failure. -/
theorem C5_call_result_inference :
    (∀ bv, infer_call_result (.int 8) bv = .ok (Value.I8 bv))
  ∧ (∀ bv, infer_call_result (.int 16) bv = .ok (Value.I16 bv))
  ∧ (∀ bv w, w ≠ 8 → w ≠ 16 → infer_call_result (.int w) bv = .error .Unreachable)
  ∧ (∀ bv, infer_call_result .float bv = .ok (Value.F32 bv))
  ∧ (∀ bv, infer_call_result .void bv = .ok Value.Void)
  ∧ (∀ bv, infer_call_result .ptr bv = .error .Unreachable) := by
  refine ⟨fun bv => rfl, fun bv => rfl, fun bv w h8 h16 => ?_,
    fun bv => rfl, fun bv => rfl, fun bv => rfl⟩
  simp [infer_call_result, h8, h16]

/-- C5 witness: a 32-bit integer return representation hits the defensive
unreachable failure, an 8-bit one becomes I8. -/
theorem C5_witness :
    infer_call_result (.int 32) (.reg 0) = .error .Unreachable
  ∧ infer_call_result (.int 8) (.reg 0) = .ok (Value.I8 (.reg 0)) :=
  ⟨C5_call_result_inference.2.2.1 (.reg 0) 32 (by decide) (by decide),
   C5_call_result_inference.1 (.reg 0)⟩

/-- C4: the implicit cast applied to each paired (argument, parameter)
depends only on the argument's tag.  An I8 constant argument is
sign-respecting integer-cast to the parameter's integer width (so an I8
into an i16 parameter is a sign-respecting widen), an I16 constant
argument is truncated to the parameter's integer width (its low bits are
kept, e.g. the low 8 bits for an i8 parameter), F32 and Str arguments pass
through unchanged with no state change, and Bool or Void arguments fail
with the unsupported-argument-type panic.  In the argument loop, index 0
reuses the already-lowered first argument — the expression stored there is
never compiled again, so replacing it changes nothing — while an argument
at any later index is lowered afresh, so its failure aborts the call. -/
theorem C4_argument_casts (s : CState) :
    (∀ bits proto w, PTy.into_int_width proto = .ok w →
      cast_arg (.I8 (.iconst 8 bits)) proto s = .ok (.iconst w (signCast 8 w bits), s))
  ∧ (∀ bits proto w, PTy.into_int_width proto = .ok w →
      cast_arg (.I16 (.iconst 16 bits)) proto s = .ok (.iconst w (bits % 2 ^ w), s))
  ∧ (∀ v proto, cast_arg (.F32 v) proto s = .ok (v, s))
  ∧ (∀ v proto, cast_arg (.Str v) proto s = .ok (v, s))
  ∧ (∀ v proto, cast_arg (.Bool v) proto s = .error .UnsupportedArgumentType)
  ∧ (∀ proto, cast_arg .Void proto s = .error .UnsupportedArgumentType)
  ∧ (∀ ctx fuel v0 e e' p ps,
      compile_call_args ctx (fuel + 1) v0 0 ((e, p) :: ps) s
        = compile_call_args ctx (fuel + 1) v0 0 ((e', p) :: ps) s)
  ∧ (∀ ctx fuel v0 i e p ps err, i ≠ 0 → compile_expr ctx fuel e s = .error err →
      compile_call_args ctx (fuel + 1) v0 i ((e, p) :: ps) s = .error err) := by
  refine ⟨fun bits proto w h => ?_, fun bits proto w h => ?_,
    fun v proto => rfl, fun v proto => rfl, fun v proto => rfl, fun proto => rfl,
    fun ctx fuel v0 e e' p ps => rfl,
    fun ctx fuel v0 i e p ps err hi herr => ?_⟩
  · simp [cast_arg, h, build_int_cast, CompM.pure_apply]
  · simp [cast_arg, h, build_int_truncate, CompM.pure_apply]
  · simp [compile_call_args, hi, CompM.bind_apply, herr]

/-- C4 witness: the I16 constant 511 into an i8 parameter keeps its low 8
bits (255); the I8 constant 200 (signed value -56) into an i16 parameter
is sign-respecting widened to the 16-bit pattern 65480; a Bool argument
fails; and at index 1 a failing argument expression aborts the loop. -/
theorem C4_witness :
    cast_arg (.I16 (.iconst 16 511)) .i8 ⟨[], 0⟩ = .ok (.iconst 8 (511 % 2 ^ 8), ⟨[], 0⟩)
  ∧ cast_arg (.I8 (.iconst 8 200)) .i16 ⟨[], 0⟩
      = .ok (.iconst 16 (signCast 8 16 200), ⟨[], 0⟩)
  ∧ cast_arg (.Bool (.iconst 1 1)) .i16 ⟨[], 0⟩ = .error .UnsupportedArgumentType
  ∧ compile_call_args (⟨[], [], none⟩ : Ctx) 2 Value.Void 1
      [(.Identifier "nope", .i16)] ⟨[], 0⟩ = .error (.NameError "nope") :=
  ⟨(C4_argument_casts ⟨[], 0⟩).2.1 511 .i8 8 rfl,
   (C4_argument_casts ⟨[], 0⟩).1 200 .i16 16 rfl,
   (C4_argument_casts ⟨[], 0⟩).2.2.2.2.1 (.iconst 1 1) .i16,
   (C4_argument_casts ⟨[], 0⟩).2.2.2.2.2.2.2 ⟨[], [], none⟩ 1 Value.Void 1
     (.Identifier "nope") .i16 [] (.NameError "nope") (by decide) rfl⟩

/-- C2 counterexample: the claim says extra trailing arguments are still
lowered so that their emission side effects occur.  Here `f` has one
parameter and `g` is a defined function whose call visibly emits: lowering
`g(2)` on its own produces a call-to-g event (second conjunct), yet
lowering `f(1, g(2))` succeeds with a trace holding only the call to `f` —
no call-to-g event, so the extra argument `g(2)` was never lowered and its
side effects did not occur. -/
theorem C2_counterexample_extra_arg_not_lowered :
    compile_expr (⟨[("f", ⟨[.i16], .void⟩), ("g", ⟨[.i16], .int 16⟩)], [], some []⟩ : Ctx) 10
      (.Call (.Identifier "f")
        [.Number (.Integer 1), .Call (.Identifier "g") [.Number (.Integer 2)] []] []) ⟨[], 0⟩
      = .ok (.Void, ⟨[.call 0 "f" [.iconst 16 1] true], 1⟩)
  ∧ compile_expr (⟨[("f", ⟨[.i16], .void⟩), ("g", ⟨[.i16], .int 16⟩)], [], some []⟩ : Ctx) 10
      (.Call (.Identifier "g") [.Number (.Integer 2)] []) ⟨[], 0⟩
      = .ok (.I16 (.reg 0), ⟨[.call 0 "g" [.iconst 16 2] true], 1⟩) :=
  ⟨rfl, rfl⟩

/-- C2 (amended): pairing of arguments against the resolved signature is
positional up to the shorter length and raises no arity error, but the
extra trailing argument expressions beyond the parameter count are neither
lowered nor passed: when the plain callee resolves to a signature with
`k ≥ 1` parameters and at least `k` arguments are supplied, the call
behaves exactly — same result, same emissions, same register allocation —
as the same call with the argument list truncated to the first `k`. -/
theorem C2_truncating_zip (ctx : Ctx) (fuel : Nat) (name : String) (f : FuncSig)
    (args : List ExpressionType) (s : CState)
    (hf : ctx.functions.lookup name = some f)
    (h1 : 1 ≤ f.params.length) (_h2 : f.params.length ≤ args.length) :
    compile_expr_call ctx (fuel + 1) (.Identifier name) args s
      = compile_expr_call ctx (fuel + 1) (.Identifier name) (args.take f.params.length) s := by
  have e1 : (args.take f.params.length).head? = args.head? :=
    head?_take_of_pos args _ h1
  have e2 : (args.take f.params.length).zip f.params = args.zip f.params :=
    take_length_zip f.params args
  simp only [compile_expr_call, resolve_function, hf, e1, e2]

/-- C2 witness: with `f` declaring one i16 parameter, the three-argument
call `f(1, 2, 3)` lowers identically to the truncated call `f(1)`. -/
theorem C2_witness :
    compile_expr_call (⟨[("f", ⟨[.i16], .void⟩)], [], none⟩ : Ctx) 9 (.Identifier "f")
      [.Number (.Integer 1), .Number (.Integer 2), .Number (.Integer 3)] ⟨[], 0⟩
      = compile_expr_call (⟨[("f", ⟨[.i16], .void⟩)], [], none⟩ : Ctx) 9 (.Identifier "f")
        ([.Number (.Integer 1), .Number (.Integer 2), .Number (.Integer 3)].take 1) ⟨[], 0⟩ :=
  C2_truncating_zip ⟨[("f", ⟨[.i16], .void⟩)], [], none⟩ 8 "f" ⟨[.i16], .void⟩
    [.Number (.Integer 1), .Number (.Integer 2), .Number (.Integer 3)] ⟨[], 0⟩
    rfl (by decide) (by decide)

/-- C3: for a call on a plain identifier with at least one argument, the
first argument is lowered eagerly before resolution — its failure aborts
the call with that same error whatever the function table holds — and
resolution then tries the plain name first (a plain-table hit resolves to
it even when a mangled entry also exists), falls back to the mangled name
derived from the plain name and the first argument's type tag, and when
both lookups miss, the call fails with the undefined-function panic before
any further argument expression is lowered (the conclusion holds for every
`rest`, including ill-formed expressions). -/
theorem C3_call_resolution_order (ctx : Ctx) (fuel : Nat) (name : String)
    (a0 : ExpressionType) (rest : List ExpressionType) (s : CState) :
    (∀ err, compile_expr ctx fuel a0 s = .error err →
      compile_expr_call ctx (fuel + 1) (.Identifier name) (a0 :: rest) s = .error err)
  ∧ (∀ v s₁, compile_expr ctx fuel a0 s = .ok (v, s₁) →
      (∀ f, ctx.functions.lookup name = some f →
        resolve_function ctx name v = .ok (name, f))
      ∧ (ctx.functions.lookup name = none →
        ∀ f, ctx.functions.lookup (mangling name v.get_type) = some f →
          resolve_function ctx name v = .ok (mangling name v.get_type, f))
      ∧ (ctx.functions.lookup name = none →
        ctx.functions.lookup (mangling name v.get_type) = none →
          compile_expr_call ctx (fuel + 1) (.Identifier name) (a0 :: rest) s
            = .error (.UndefinedFunction name))) := by
  refine ⟨fun err herr => ?_,
    fun v s₁ hok => ⟨fun f hf => ?_, fun hn f hm => ?_, fun hn hm => ?_⟩⟩
  · simp [compile_expr_call, CompM.bind_apply, herr, CompM.error_apply]
  · simp [resolve_function, hf]
  · simp [resolve_function, hn, hm]
  · simp [compile_expr_call, CompM.bind_apply, hok, resolve_function, hn, hm,
      CompM.error_apply]

/-- C3 witness: a failing first argument aborts the call with its own error
even though the table is empty; a plain-table hit wins although a mangled
entry for the same name exists; with no plain entry the mangled entry
`k__i16` is selected for an I16 first argument; and when both lookups miss
the call fails with the undefined-function panic even though a later
argument would itself fail to lower. -/
theorem C3_witness :
    compile_expr_call (⟨[], [], none⟩ : Ctx) 2 (.Identifier "f")
      [.Identifier "nope"] ⟨[], 0⟩ = .error (.NameError "nope")
  ∧ resolve_function
      (⟨[("f", ⟨[.i16], .void⟩), ("f__i16", ⟨[.i16], .int 8⟩)], [], none⟩ : Ctx)
      "f" (.I16 (.iconst 16 1)) = .ok ("f", ⟨[.i16], .void⟩)
  ∧ resolve_function (⟨[("k__i16", ⟨[.i16], .int 8⟩)], [], none⟩ : Ctx)
      "k" (.I16 (.iconst 16 1)) = .ok (mangling "k" .I16, ⟨[.i16], .int 8⟩)
  ∧ compile_expr_call (⟨[], [], none⟩ : Ctx) 2 (.Identifier "h")
      [.Number (.Integer 1), .Identifier "nope"] ⟨[], 0⟩
      = .error (.UndefinedFunction "h") :=
  ⟨(C3_call_resolution_order ⟨[], [], none⟩ 1 "f" (.Identifier "nope") [] ⟨[], 0⟩).1
      (.NameError "nope") rfl,
   ((C3_call_resolution_order
      (⟨[("f", ⟨[.i16], .void⟩), ("f__i16", ⟨[.i16], .int 8⟩)], [], none⟩ : Ctx)
      1 "f" (.Number (.Integer 1)) [] ⟨[], 0⟩).2 (.I16 (.iconst 16 1)) ⟨[], 0⟩ rfl).1
      ⟨[.i16], .void⟩ rfl,
   (((C3_call_resolution_order (⟨[("k__i16", ⟨[.i16], .int 8⟩)], [], none⟩ : Ctx)
      1 "k" (.Number (.Integer 1)) [] ⟨[], 0⟩).2 (.I16 (.iconst 16 1)) ⟨[], 0⟩ rfl).2.1
      rfl ⟨[.i16], .int 8⟩ rfl),
   (((C3_call_resolution_order (⟨[], [], none⟩ : Ctx)
      1 "h" (.Number (.Integer 1)) [.Identifier "nope"] ⟨[], 0⟩).2
      (.I16 (.iconst 16 1)) ⟨[], 0⟩ rfl).2.2 rfl rfl)⟩
